import Mathlib

/-!
Verification development for the catalog harvesting service
(`src/modules/parser/parser.service.ts`).

Strings are modelled as `List Char` (`Str`); ASCII character classes are
modelled through code points (`'a'.toNat = 97` etc.).  The source's
JavaScript string operations (`toLowerCase`, `replace`, `trim`) are embedded
for the ASCII range, which covers all character-class behaviour the proofs
depend on.  Asynchronous I/O (puppeteer navigation, `https.get`, write
streams) is embedded as explicit outcome parameters fed to pure functions
that return the resolution (`Except`), the annotated records, the file-system
effects, and the metadata snapshot write.
-/

abbrev Str := List Char

/-! ## Safe Naming: `createSafeFileName` (parser.service.ts lines 160-168) -/

/-- Character class `[a-z]` (code points 97-122). -/
def lowerAlpha (c : Char) : Bool := 97 ≤ c.toNat && c.toNat ≤ 122

/-- Character class `[A-Z]` (code points 65-90). -/
def upperAlpha (c : Char) : Bool := 65 ≤ c.toNat && c.toNat ≤ 90

/-- Character class `[0-9]` (code points 48-57). -/
def digitChar (c : Char) : Bool := 48 ≤ c.toNat && c.toNat ≤ 57

/-- The class kept by the regex `[^a-z0-9]` with the `i` flag:
letters of either case and digits. -/
def isAlnumCI (c : Char) : Bool := lowerAlpha c || upperAlpha c || digitChar c

/-- `String.prototype.toLowerCase`, ASCII range: maps `A-Z` to `a-z`. -/
def jsToLower (c : Char) : Char :=
  if upperAlpha c then Char.ofNat (c.toNat + 32) else c

/-- One character of `.replace(/[^a-z0-9]/gi, '_')`. -/
def replChar (c : Char) : Char := if isAlnumCI c then c else '_'

/-- `.replace(/[^a-z0-9]/gi, '_')`: every character outside the kept class
becomes an underscore. -/
def replaceNonAlnum (s : Str) : Str := s.map replChar

/-- Helper for `.replace(/_+/g, '_')`: the boolean records whether the
previous character was part of an underscore run already emitted. -/
def collapseAux : Bool → Str → Str
  | _, [] => []
  | prevUnd, c :: rest =>
    if c = '_' then
      if prevUnd then collapseAux true rest
      else '_' :: collapseAux true rest
    else c :: collapseAux false rest

/-- `.replace(/_+/g, '_')`: each maximal run of underscores becomes a single
underscore. -/
def collapseUnderscores (s : Str) : Str := collapseAux false s

/-- The character set removed by `String.prototype.trim` (ECMAScript
WhiteSpace and LineTerminator), restricted to the code points that can
appear here. -/
def isJsWhitespace (c : Char) : Bool :=
  c.toNat = 32 || c.toNat = 9 || c.toNat = 10 || c.toNat = 13 ||
  c.toNat = 11 || c.toNat = 12 || c.toNat = 160 ||
  c.toNat = 0x2028 || c.toNat = 0x2029 || c.toNat = 0xFEFF

/-- `String.prototype.trim`: strips leading and trailing whitespace. -/
def jsTrim (s : Str) : Str :=
  ((s.dropWhile isJsWhitespace).reverse.dropWhile isJsWhitespace).reverse

/-- The `safeTitle` local of `createSafeFileName`:
`title.toLowerCase().replace(/[^a-z0-9]/gi, '_').replace(/_+/g, '_').trim()`. -/
def safeTitle (title : Str) : Str :=
  jsTrim (collapseUnderscores (replaceNonAlnum (title.map jsToLower)))

/-- Decimal digits of a natural number, most significant first, as the
template literal interpolation of `Date.now()` produces them. -/
def natDigitsAux : Nat → Nat → Str → Str
  | 0, _, acc => acc
  | fuel + 1, n, acc =>
    let d := Char.ofNat (48 + n % 10)
    if n < 10 then d :: acc
    else natDigitsAux fuel (n / 10) (d :: acc)

def natDigits (n : Nat) : Str := natDigitsAux (n + 1) n []

/-- `createSafeFileName(title)`, with `Date.now()` passed in as `now`:
returns `` `${safeTitle}_${Date.now()}.pdf` ``. -/
def createSafeFileName (title : Str) (now : Nat) : Str :=
  safeTitle title ++ ['_'] ++ natDigits now ++ ['.', 'p', 'd', 'f']

/-! ## Data model -/

/-- The `Catalog` interface (parser.service.ts lines 7-13). -/
structure Catalog where
  title : Str
  link : Str
  validFrom : Str
  validUntil : Str
  localPath : Option Str := none
deriving DecidableEq, Repr

/-! ## Record extraction: the `page.evaluate` body of `parseCatalogs`
(parser.service.ts lines 72-89) -/

/-- An anchor element inside a `.card-catalogue` entry, carrying its
`href` attribute. -/
structure Anchor where
  href : Str
deriving DecidableEq, Repr

/-- One `.card-catalogue` DOM entry: its anchors in DOM order, the
`h3 a` text content (when the element exists), and the `datetime`
attributes of the first/last `time` children of its `p` element (when
present). -/
structure Entry where
  anchors : List Anchor
  headingText : Option Str
  timeFirst : Option Str
  timeLast : Option Str
deriving DecidableEq, Repr

/-- Substring containment over character lists. -/
def hasSub (pat : Str) : Str → Bool
  | [] => pat.isEmpty
  | c :: rest => pat.isPrefixOf (c :: rest) || hasSub pat rest

/-- `href*=".pdf"`: the attribute value contains the substring `.pdf`. -/
def hrefHasPdf (s : Str) : Bool := hasSub (['.', 'p', 'd', 'f']) s

/-- `item.querySelector('a[href*=".pdf"]')`: the first anchor whose `href`
contains `.pdf`. -/
def queryPdfAnchor (e : Entry) : Option Anchor :=
  e.anchors.find? (fun a => hrefHasPdf a.href)

/-- `item.querySelector('a[href*=".pdf"]')?.getAttribute('href') || ''`. -/
def entryLink (e : Entry) : Str :=
  match queryPdfAnchor e with
  | some a => a.href
  | none => []

/-- `item.querySelector('h3 a')?.textContent?.trim() || ''`. -/
def entryTitle (e : Entry) : Str :=
  match e.headingText with
  | some t => jsTrim t
  | none => []

/-- `getAttribute('datetime') || ''` on an optional element. -/
def attrOrEmpty (o : Option Str) : Str :=
  match o with
  | some s => s
  | none => []

/-- The object built for one entry inside `page.evaluate`. -/
def extractCatalog (e : Entry) : Catalog :=
  { title := entryTitle e
    link := entryLink e
    validFrom := attrOrEmpty e.timeFirst
    validUntil := attrOrEmpty e.timeLast
    localPath := none }

/-- Whether an entry has a resolvable document link. -/
def entryHasDoc (e : Entry) : Bool := (queryPdfAnchor e).isSome

/-- The full `page.evaluate` body: map every `.card-catalogue` entry to a
catalog object, then `.filter(catalog => catalog.link)` (a string is truthy
iff non-empty). -/
def evaluateCatalogs (entries : List Entry) : List Catalog :=
  (entries.map extractCatalog).filter (fun c => !c.link.isEmpty)

/-! ## Artifact fetching: `downloadCatalog` (parser.service.ts lines 111-158) -/

/-- Outcome of the `https.get` request for one record: either the request
emits `error` (no response), or a response arrives with a status code, and —
when the body is piped — the write stream either emits `finish` or `error`. -/
inductive FetchOutcome
  | connectError
  | response (statusCode : Nat) (streamOk : Bool)
deriving DecidableEq, Repr

/-- The rejection value of the download promise. -/
inductive DlError
  | httpStatus (code : Nat)
  | connectErr
  | streamErr
deriving DecidableEq, Repr

/-- What remains on disk at the target path after the download settles. -/
inductive FileState
  | incomplete
  | complete
deriving DecidableEq, Repr

/-- `path.join(this.downloadPath, 'catalogs', fileName)` with the working
directory elided. -/
def catalogsDir : Str := ("data/catalogs/").toList

def targetPath (c : Catalog) (now : Nat) : Str :=
  catalogsDir ++ createSafeFileName c.title now

/-- Result of one `downloadCatalog` call: how its promise settled, the
(possibly annotated) record, the target path it derived, and the file left
at that path. -/
structure DownloadResult where
  settled : Except DlError Unit
  catalog : Catalog
  path : Str
  fileAt : Option FileState
deriving Repr

/-- Whether the download promise resolved. -/
def settledOk (r : DownloadResult) : Bool :=
  match r.settled with
  | .ok _ => true
  | .error _ => false

/-- `downloadCatalog(catalog)` with `Date.now()` passed as `now` and the
network/stream behaviour passed as `out`.
- empty link: warn and resolve, no write stream is ever created;
- otherwise `fs.createWriteStream(filePath)` creates the file, then:
  - request `error`: `fs.unlink` removes the file, promise rejects;
  - `statusCode !== 200`: promise rejects with **no** `unlink` — the created
    file stays behind;
  - status 200 and the stream finishes: `catalog.localPath = filePath`,
    promise resolves;
  - status 200 and the stream errors: `fs.unlink` removes the file, promise
    rejects. -/
def downloadCatalog (c : Catalog) (out : FetchOutcome) (now : Nat) : DownloadResult :=
  let fp := targetPath c now
  if c.link.isEmpty then
    { settled := .ok (), catalog := c, path := fp, fileAt := none }
  else
    match out with
    | .connectError =>
      { settled := .error .connectErr, catalog := c, path := fp, fileAt := none }
    | .response code streamOk =>
      if code ≠ 200 then
        { settled := .error (.httpStatus code), catalog := c, path := fp
          fileAt := some .incomplete }
      else if streamOk then
        { settled := .ok (), catalog := { c with localPath := some fp }
          path := fp, fileAt := some .complete }
      else
        { settled := .error .streamErr, catalog := c, path := fp, fileAt := none }

/-! ## Harvest orchestration: `processCatalogs` (lines 98-109) and
`parseCatalogs` (lines 59-96) -/

/-- One download job: the extracted record, the network behaviour its fetch
will meet, and the `Date.now()` value at its `createSafeFileName` call. -/
abbrev Job := Catalog × FetchOutcome × Nat

/-- `catalogs.map(catalog => this.downloadCatalog(catalog))`: every download
starts; each runs to its own settlement with its own effects. -/
def runDownloads (jobs : List Job) : List DownloadResult :=
  jobs.map (fun j => downloadCatalog j.1 j.2.1 j.2.2)

/-- The rejection `await Promise.all(downloadPromises)` surfaces (`none`
when every promise resolves).  `Promise.all` rejects with the first promise
to reject in real time; which rejection is surfaced is irrelevant to the
claims, so the model takes the first in list order. -/
def firstRejection : List DownloadResult → Option DlError
  | [] => none
  | r :: rs =>
    match r.settled with
    | .error e => some e
    | .ok _ => firstRejection rs

/-- Observable outcome of one `processCatalogs` call. -/
structure RunOutcome where
  result : Except DlError Unit
  catalogsAfter : List Catalog
  files : List (Str × FileState)
  metadataWritten : Option (List Catalog)
deriving Repr

/-- `processCatalogs(catalogs)`: start all downloads, `await Promise.all`;
only when every promise resolves does control reach the
`fs.writeFileSync(metadataPath, JSON.stringify(catalogs, null, 2))` line —
a rejection propagates out of `processCatalogs` and no metadata write
happens.  `files` collects what each download left at its target path. -/
def processCatalogs (jobs : List Job) : RunOutcome :=
  match firstRejection (runDownloads jobs) with
  | some e =>
    { result := .error e
      catalogsAfter := (runDownloads jobs).map (fun r => r.catalog)
      files := (runDownloads jobs).filterMap (fun r => r.fileAt.map (fun st => (r.path, st)))
      metadataWritten := none }
  | none =>
    { result := .ok ()
      catalogsAfter := (runDownloads jobs).map (fun r => r.catalog)
      files := (runDownloads jobs).filterMap (fun r => r.fileAt.map (fun st => (r.path, st)))
      metadataWritten := some ((runDownloads jobs).map (fun r => r.catalog)) }

/-- How `page.goto(...)` ends: success, unreachable target
(`NavigationError`), or the 60s timeout. -/
inductive NavOutcome
  | ok
  | navError
  | timeoutErr
deriving DecidableEq, Repr

/-- The environment one `parseCatalogs` call runs against. -/
structure PageEnv where
  nav : NavOutcome
  selectorFound : Bool
  entries : List Entry
deriving Repr

structure BrowserEnv where
  browserUp : Bool
  page : PageEnv
  fetches : List (FetchOutcome × Nat)
deriving Repr

/-- The errors `parseCatalogs` can throw. -/
inductive RunError
  | browserNotInitialized
  | navigation
  | renderTimeout
  | download (e : DlError)
deriving DecidableEq, Repr

/-- Observable trace of one `parseCatalogs` call: rendering surfaces opened
and closed, the inner `processCatalogs` outcome when that phase was reached,
and how the promise settled. -/
structure ParseTrace where
  pagesOpened : Nat
  pagesClosed : Nat
  run : Option RunOutcome
  result : Except RunError (List Catalog)
deriving Repr

/-- `parseCatalogs()`:
- throws `'Browser not initialized'` when `this.browser` is null, before
  any page is opened;
- `browser.newPage()` opens a page; a failed or timed-out `goto`, or a
  timed-out `waitForSelector`, throws with **no** `page.close()` on the way
  out (there is no try/finally);
- on the success path the page is closed, then `processCatalogs` runs; its
  rejection propagates; otherwise the annotated catalog list is returned. -/
def parseCatalogs (env : BrowserEnv) : ParseTrace :=
  if !env.browserUp then
    { pagesOpened := 0, pagesClosed := 0, run := none
      result := .error .browserNotInitialized }
  else
    match env.page.nav with
    | .navError =>
      { pagesOpened := 1, pagesClosed := 0, run := none
        result := .error .navigation }
    | .timeoutErr =>
      { pagesOpened := 1, pagesClosed := 0, run := none
        result := .error .renderTimeout }
    | .ok =>
      if !env.page.selectorFound then
        { pagesOpened := 1, pagesClosed := 0, run := none
          result := .error .renderTimeout }
      else
        match (processCatalogs ((evaluateCatalogs env.page.entries).zip env.fetches)).result with
        | .error e =>
          { pagesOpened := 1, pagesClosed := 1
            run := some (processCatalogs ((evaluateCatalogs env.page.entries).zip env.fetches))
            result := .error (.download e) }
        | .ok _ =>
          { pagesOpened := 1, pagesClosed := 1
            run := some (processCatalogs ((evaluateCatalogs env.page.entries).zip env.fetches))
            result := .ok (processCatalogs ((evaluateCatalogs env.page.entries).zip env.fetches)).catalogsAfter }

/-! ## Character-level lemmas for Safe Naming -/

/-- `Char.ofNat` round-trips on the ASCII code points used here. -/
theorem toNat_ofNat_ascii (n : Nat) (h1 : 48 ≤ n) (h2 : n ≤ 122) :
    (Char.ofNat n).toNat = n := by
  interval_cases n <;> decide

/-- Lowercasing never produces an upper-case letter. -/
theorem upperAlpha_jsToLower (c : Char) : upperAlpha (jsToLower c) = false := by
  unfold jsToLower
  by_cases h : upperAlpha c = true
  · simp only [h, if_true]
    have hb : 65 ≤ c.toNat ∧ c.toNat ≤ 90 := by
      simpa [upperAlpha] using h
    have ht : (Char.ofNat (c.toNat + 32)).toNat = c.toNat + 32 :=
      toNat_ofNat_ascii _ (by omega) (by omega)
    simp [upperAlpha, ht]
    omega
  · simp only [h]
    simpa using h

/-- The character class of everything `replChar ∘ jsToLower` can emit. -/
def outChar (c : Char) : Prop := lowerAlpha c = true ∨ digitChar c = true ∨ c = '_'

theorem outChar_replChar (c : Char) : outChar (replChar (jsToLower c)) := by
  unfold replChar
  by_cases h : isAlnumCI (jsToLower c) = true
  · simp only [h, if_true]
    have hu := upperAlpha_jsToLower c
    simp only [isAlnumCI, Bool.or_eq_true, hu] at h
    rcases h with (h | h) | h
    · exact Or.inl h
    · simp at h
    · exact Or.inr (Or.inl h)
  · simp only [h, if_false]
    exact Or.inr (Or.inr rfl)

theorem outChar_not_whitespace {c : Char} (h : outChar c) :
    isJsWhitespace c = false := by
  rcases h with h | h | h
  · simp only [lowerAlpha, Bool.and_eq_true, decide_eq_true_eq] at h
    simp [isJsWhitespace]
    omega
  · simp only [digitChar, Bool.and_eq_true, decide_eq_true_eq] at h
    simp [isJsWhitespace]
    omega
  · subst h
    decide

theorem mem_collapseAux {P : Char → Prop} (hP : P '_') :
    ∀ (b : Bool) (s : Str), (∀ c ∈ s, P c) → ∀ c ∈ collapseAux b s, P c := by
  intro b s
  induction s generalizing b with
  | nil => intro _ c hc; simp [collapseAux] at hc
  | cons a rest ih =>
    intro hs c hc
    unfold collapseAux at hc
    by_cases ha : a = '_'
    · simp only [ha, if_true] at hc
      by_cases hb : b = true
      · subst hb
        simp only [if_true] at hc
        exact ih true (fun x hx => hs x (List.mem_cons_of_mem _ hx)) c hc
      · simp only [Bool.not_eq_true] at hb
        subst hb
        simp only [Bool.false_eq_true, if_false, List.mem_cons] at hc
        rcases hc with hc | hc
        · subst hc; exact hP
        · exact ih true (fun x hx => hs x (List.mem_cons_of_mem _ hx)) c hc
    · simp only [ha, if_false, List.mem_cons] at hc
      rcases hc with rfl | hc
      · exact hs c (List.mem_cons_self _ _)
      · exact ih false (fun x hx => hs x (List.mem_cons_of_mem _ hx)) c hc

theorem mem_dropWhile {p : Char → Bool} :
    ∀ {s : Str} {c : Char}, c ∈ s.dropWhile p → c ∈ s := by
  intro s
  induction s with
  | nil => intro c hc; simp [List.dropWhile] at hc
  | cons a rest ih =>
    intro c hc
    by_cases ha : p a = true
    · simp only [List.dropWhile, ha] at hc
      exact List.mem_cons_of_mem _ (ih hc)
    · simp only [List.dropWhile, Bool.not_eq_true] at ha
      simp only [List.dropWhile, ha] at hc
      simpa using hc

theorem mem_jsTrim {s : Str} {c : Char} (h : c ∈ jsTrim s) : c ∈ s := by
  unfold jsTrim at h
  rw [List.mem_reverse] at h
  have h2 := mem_dropWhile h
  rw [List.mem_reverse] at h2
  exact mem_dropWhile h2

/-- Every character of `safeTitle title` is a lower-case letter, a digit,
or an underscore. -/
theorem safeTitle_chars (title : Str) : ∀ c ∈ safeTitle title, outChar c := by
  intro c hc
  unfold safeTitle at hc
  have hc2 := mem_jsTrim hc
  refine mem_collapseAux (Or.inr (Or.inr rfl)) false _ ?_ c hc2
  intro x hx
  unfold replaceNonAlnum at hx
  rw [List.map_map] at hx
  obtain ⟨a, _, rfl⟩ := List.mem_map.mp hx
  exact outChar_replChar a

theorem natDigitsAux_chars :
    ∀ (fuel n : Nat) (acc : Str), (∀ c ∈ acc, digitChar c = true) →
      ∀ c ∈ natDigitsAux fuel n acc, digitChar c = true := by
  intro fuel
  induction fuel with
  | zero => intro n acc hacc c hc; exact hacc c hc
  | succ f ih =>
    intro n acc hacc c hc
    unfold natDigitsAux at hc
    have hd : digitChar (Char.ofNat (48 + n % 10)) = true := by
      have hlt : n % 10 < 10 := Nat.mod_lt _ (by omega)
      have ht : (Char.ofNat (48 + n % 10)).toNat = 48 + n % 10 :=
        toNat_ofNat_ascii _ (by omega) (by omega)
      simp [digitChar, ht]
      omega
    by_cases hn : n < 10
    · simp only [hn, if_true, List.mem_cons] at hc
      rcases hc with hc | hc
      · subst hc; exact hd
      · exact hacc c hc
    · simp only [hn, if_false] at hc
      refine ih (n / 10) _ ?_ c hc
      intro x hx
      rcases List.mem_cons.mp hx with hx | hx
      · subst hx; exact hd
      · exact hacc x hx

theorem natDigits_chars (n : Nat) : ∀ c ∈ natDigits n, digitChar c = true :=
  natDigitsAux_chars (n + 1) n [] (by intro c hc; simp at hc)

/-! ## Claims C4, C5, C6: Safe Naming -/

theorem dropWhile_eq_self_of_all {p : Char → Bool} {s : Str}
    (h : ∀ c ∈ s, p c = false) : s.dropWhile p = s := by
  cases s with
  | nil => rfl
  | cons a rest => simp [List.dropWhile, h a (List.mem_cons_self _ _)]

theorem jsTrim_eq_self {s : Str} (h : ∀ c ∈ s, isJsWhitespace c = false) :
    jsTrim s = s := by
  unfold jsTrim
  rw [dropWhile_eq_self_of_all h]
  rw [dropWhile_eq_self_of_all (fun c hc => h c (List.mem_reverse.mp hc))]
  exact List.reverse_reverse s

theorem outChar_of_mem_collapsed {title : Str} {c : Char}
    (hc : c ∈ collapseUnderscores (replaceNonAlnum (title.map jsToLower))) :
    outChar c := by
  refine mem_collapseAux (Or.inr (Or.inr rfl)) false _ ?_ c hc
  intro x hx
  unfold replaceNonAlnum at hx
  rw [List.map_map] at hx
  obtain ⟨a, _, rfl⟩ := List.mem_map.mp hx
  exact outChar_replChar a

/-- Trimming leading and trailing separator (underscore) characters — the
final step as claim C4 words it. -/
def trimSeps (s : Str) : Str :=
  ((s.dropWhile (fun c => c = '_')).reverse.dropWhile (fun c => c = '_')).reverse

/-- The normalized prefix as claim C4 words it: lowercase, replace every
character outside the kept class with the separator, collapse separator
runs, then trim leading/trailing separators. -/
def claimedSafeTitle (title : Str) : Str :=
  trimSeps (collapseUnderscores (replaceNonAlnum (title.map jsToLower)))

/-- C4 counterexample: on the title `"!a"` the code's normalized prefix is
`"_a"` — the leading separator is **not** trimmed — while the claimed
pipeline yields `"a"`.  The source's `.trim()` strips whitespace, not
separator characters. -/
theorem c4_counterexample :
    safeTitle (("!a").toList) = ("_a").toList ∧
    claimedSafeTitle (("!a").toList) = ("a").toList ∧
    safeTitle (("!a").toList) ≠ claimedSafeTitle (("!a").toList) :=
  ⟨by decide, by decide, by decide⟩

/-- C4 (amended): `createSafeFileName` computes its normalized prefix by
lowercasing, replacing every character outside the kept class with an
underscore, and collapsing consecutive underscores — with **no** trimming of
leading or trailing separator characters: the final `.trim()` only strips
whitespace, and no whitespace survives the replacement, so it is the
identity here. -/
theorem c4_prefix_pipeline (title : Str) :
    safeTitle title = collapseUnderscores (replaceNonAlnum (title.map jsToLower)) := by
  unfold safeTitle
  exact jsTrim_eq_self (fun c hc => outChar_not_whitespace (outChar_of_mem_collapsed hc))

theorem map_eq_of_pointwise (f : Char → Char) :
    ∀ (s t : Str), s.length = t.length →
      (∀ i, i < s.length → f (s.getD i ' ') = f (t.getD i ' ')) →
      s.map f = t.map f := by
  intro s
  induction s with
  | nil =>
    intro t hlen _
    cases t with
    | nil => rfl
    | cons b t' => simp at hlen
  | cons a s' ih =>
    intro t hlen h
    cases t with
    | nil => simp at hlen
    | cons b t' =>
      simp only [List.map_cons, List.cons.injEq]
      constructor
      · have h0 := h 0 (by simp)
        simpa using h0
      · refine ih t' (by simpa using hlen) ?_
        intro i hi
        have hs := h (i + 1) (by simpa using Nat.succ_lt_succ hi)
        simpa [List.getD_cons_succ] using hs

/-- The alphanumeric content of a title, lowercased — what claim C5 means by
"titles that differ only in non-alphanumeric characters". -/
def alnumContent (s : Str) : Str := (s.filter isAlnumCI).map jsToLower

/-- C5 counterexample: the spec's own example pair.  `"Spring Sale!"` and
`"spring_sale"` have the same alphanumeric content up to case, yet the code
produces prefixes `"spring_sale_"` and `"spring_sale"` — the trailing
separator from `'!'` is kept, so the prefixes differ. -/
theorem c5_counterexample :
    alnumContent (("Spring Sale!").toList) = alnumContent (("spring_sale").toList) ∧
    safeTitle (("Spring Sale!").toList) ≠ safeTitle (("spring_sale").toList) :=
  ⟨by decide, by decide⟩

/-- C5 (amended): two titles of the same length whose characters normalize
identically position by position — alphanumeric positions agree up to case
and the remaining positions are non-alphanumeric in both — get the same
normalized prefix. -/
theorem c5_pointwise (s t : Str) (hlen : s.length = t.length)
    (h : ∀ i, i < s.length →
      replChar (jsToLower (s.getD i ' ')) = replChar (jsToLower (t.getD i ' '))) :
    safeTitle s = safeTitle t := by
  unfold safeTitle
  have : replaceNonAlnum (s.map jsToLower) = replaceNonAlnum (t.map jsToLower) := by
    unfold replaceNonAlnum
    rw [List.map_map, List.map_map]
    exact map_eq_of_pointwise _ s t hlen h
  rw [this]

/-- C5 witness: `"Spring Sale!"` and `"spring-sale."` are related pointwise,
and the theorem yields equal prefixes for them. -/
theorem c5_pointwise_witness :
    (("Spring Sale!").toList).length = (("spring-sale.").toList).length ∧
    (∀ i, i < (("Spring Sale!").toList).length →
      replChar (jsToLower ((("Spring Sale!").toList).getD i ' ')) =
        replChar (jsToLower ((("spring-sale.").toList).getD i ' '))) ∧
    safeTitle (("Spring Sale!").toList) = safeTitle (("spring-sale.").toList) :=
  ⟨by decide, by decide, c5_pointwise _ _ (by decide) (by decide)⟩

/-- The character set claim C6 allows in a derived file name: `[a-z0-9_]`
plus the extension separator. -/
def fileNameChar (c : Char) : Bool :=
  lowerAlpha c || digitChar c || c = '_' || c = '.'

/-- C6: for every title and every timestamp, `createSafeFileName` returns a
non-empty string that ends in the fixed `.pdf` extension and contains no
characters outside `[a-z0-9_]` other than the extension separator. -/
theorem c6_filename_shape (title : Str) (now : Nat) :
    createSafeFileName title now ≠ [] ∧
    (['.', 'p', 'd', 'f']) <:+ createSafeFileName title now ∧
    ∀ c ∈ createSafeFileName title now, fileNameChar c = true := by
  refine ⟨?_, ?_, ?_⟩
  · unfold createSafeFileName
    simp [List.append_eq_nil]
  · unfold createSafeFileName
    exact List.suffix_append _ _
  · intro c hc
    unfold createSafeFileName at hc
    simp only [List.mem_append] at hc
    rcases hc with ((hc | hc) | hc) | hc
    · rw [c4_prefix_pipeline] at hc
      rcases outChar_of_mem_collapsed hc with h | h | h
      · simp [fileNameChar, h]
      · simp [fileNameChar, h]
      · simp [fileNameChar, h]
    · have : c = '_' := by simpa using hc
      subst this
      decide
    · have := natDigits_chars now c hc
      simp [fileNameChar, this]
    · simp only [List.mem_cons, List.not_mem_nil, or_false] at hc
      rcases hc with rfl | rfl | rfl | rfl <;> decide

/-! ## Claim C8: extraction filter and order -/

theorem hrefHasPdf_ne_nil {s : Str} (h : hrefHasPdf s = true) : s ≠ [] := by
  intro hnil
  subst hnil
  simp [hrefHasPdf, hasSub, List.isEmpty] at h

theorem entryLink_empty_iff (e : Entry) :
    (entryLink e).isEmpty = !entryHasDoc e := by
  unfold entryLink entryHasDoc queryPdfAnchor
  cases hq : e.anchors.find? (fun a => hrefHasPdf a.href) with
  | none => rfl
  | some a =>
    have hp : hrefHasPdf a.href = true := by simpa using List.find?_some hq
    have hne := hrefHasPdf_ne_nil hp
    cases hhref : a.href with
    | nil => exact absurd hhref hne
    | cons x xs => simp [hhref]

/-- C8: for every list of rendered entries, extraction returns exactly one
record per entry with a resolvable document link, in DOM order — it is the
map of the record constructor over the sub-list of entries that have a
`.pdf` anchor, and its length is the count of such entries. -/
theorem c8_extraction (entries : List Entry) :
    evaluateCatalogs entries = (entries.filter entryHasDoc).map extractCatalog ∧
    (evaluateCatalogs entries).length = entries.countP entryHasDoc := by
  have hmain : evaluateCatalogs entries = (entries.filter entryHasDoc).map extractCatalog := by
    unfold evaluateCatalogs
    rw [List.filter_map]
    congr 1
    apply List.filter_congr
    intro e _
    simp only [Function.comp_apply]
    rw [show (extractCatalog e).link = entryLink e from rfl]
    rw [show ((entryLink e).isEmpty : Bool) = !entryHasDoc e from entryLink_empty_iff e]
    simp
  refine ⟨hmain, ?_⟩
  rw [hmain, List.length_map, ← List.countP_eq_length_filter]

/-! ## Orchestrator lemmas -/

theorem processCatalogs_catalogsAfter (jobs : List Job) :
    (processCatalogs jobs).catalogsAfter = (runDownloads jobs).map (fun r => r.catalog) := by
  unfold processCatalogs
  cases firstRejection (runDownloads jobs) <;> rfl

theorem processCatalogs_files (jobs : List Job) :
    (processCatalogs jobs).files =
      (runDownloads jobs).filterMap (fun r => r.fileAt.map (fun st => (r.path, st))) := by
  unfold processCatalogs
  cases firstRejection (runDownloads jobs) <;> rfl

theorem processCatalogs_settled_ok {jobs : List Job}
    (h : firstRejection (runDownloads jobs) = none) :
    (processCatalogs jobs).result = .ok () ∧
    (processCatalogs jobs).metadataWritten =
      some ((runDownloads jobs).map (fun r => r.catalog)) := by
  unfold processCatalogs
  rw [h]
  exact ⟨rfl, rfl⟩

theorem processCatalogs_rejected {jobs : List Job} {e : DlError}
    (h : firstRejection (runDownloads jobs) = some e) :
    (processCatalogs jobs).result = .error e ∧
    (processCatalogs jobs).metadataWritten = none := by
  unfold processCatalogs
  rw [h]
  exact ⟨rfl, rfl⟩

theorem firstRejection_eq_none_iff (rs : List DownloadResult) :
    firstRejection rs = none ↔ ∀ r ∈ rs, settledOk r = true := by
  induction rs with
  | nil => simp [firstRejection]
  | cons r rest ih =>
    cases hs : r.settled with
    | error e => simp [firstRejection, hs, settledOk, List.forall_mem_cons]
    | ok u => simp [firstRejection, hs, settledOk, List.forall_mem_cons, ih]

/-! ## Claim C9: null browser guard -/

def c9Env : BrowserEnv :=
  { browserUp := false
    page := { nav := .ok, selectorFound := true, entries := [] }
    fetches := [] }

/-- C9: when the browser handle is null, `parseCatalogs` throws
`'Browser not initialized'` before opening any page, attempting any
download, or touching the metadata snapshot. -/
theorem c9_browser_guard (env : BrowserEnv) (h : env.browserUp = false) :
    parseCatalogs env =
      { pagesOpened := 0, pagesClosed := 0, run := none
        result := .error .browserNotInitialized } := by
  unfold parseCatalogs
  rw [h]
  rfl

/-- C9 witness: a concrete environment with a null browser handle. -/
theorem c9_browser_guard_witness :
    c9Env.browserUp = false ∧
    parseCatalogs c9Env =
      { pagesOpened := 0, pagesClosed := 0, run := none
        result := .error .browserNotInitialized } :=
  ⟨rfl, c9_browser_guard c9Env rfl⟩

/-! ## Claim C10: metadata written only after all downloads resolve -/

/-- C10: the metadata snapshot is written (the `metadataWritten` field is
set) exactly when every download promise of the run resolved; if any
download promise rejects, `processCatalogs` performs no metadata write. -/
theorem c10_metadata_gate (jobs : List Job) :
    (processCatalogs jobs).metadataWritten ≠ none ↔
      ∀ r ∈ runDownloads jobs, settledOk r = true := by
  rw [← firstRejection_eq_none_iff]
  cases h : firstRejection (runDownloads jobs) with
  | none => simp [(processCatalogs_settled_ok h).2]
  | some e => simp [(processCatalogs_rejected h).2]

/-! ## Claim C7: page lifecycle -/

def c7CexEnv : BrowserEnv :=
  { browserUp := true
    page := { nav := .navError, selectorFound := true, entries := [] }
    fetches := [] }

def c7CexEnvT : BrowserEnv :=
  { browserUp := true
    page := { nav := .timeoutErr, selectorFound := true, entries := [] }
    fetches := [] }

def c7CexEnvS : BrowserEnv :=
  { browserUp := true
    page := { nav := .ok, selectorFound := false, entries := [] }
    fetches := [] }

/-- C7 counterexample: on each of the three failure exits of the extraction
phase — `page.goto` fails with a navigation error, `page.goto` times out,
or `page.waitForSelector` never sees the marker element — the opened page
is never closed: `parseCatalogs` has no try/finally, so the `page.close()`
on line 91 is skipped on every throwing path and the surface leaks. -/
theorem c7_counterexample :
    ((parseCatalogs c7CexEnv).pagesOpened = 1 ∧
      (parseCatalogs c7CexEnv).pagesClosed = 0) ∧
    ((parseCatalogs c7CexEnvT).pagesOpened = 1 ∧
      (parseCatalogs c7CexEnvT).pagesClosed = 0) ∧
    ((parseCatalogs c7CexEnvS).pagesOpened = 1 ∧
      (parseCatalogs c7CexEnvS).pagesClosed = 0) :=
  ⟨⟨rfl, rfl⟩, ⟨rfl, rfl⟩, ⟨rfl, rfl⟩⟩

/-- C7 (amended): every `parseCatalogs` call with a live browser opens
exactly one page, but the page is closed only on the success path of the
extraction phase: it is closed iff navigation succeeded and the marker
selector appeared, and it is leaked (zero closes) iff that conjunction
fails — on navigation failure, navigation timeout, or selector timeout.
(The close on line 91 precedes `processCatalogs`, so download failures do
not leak the page.) -/
theorem c7_page_lifecycle (env : BrowserEnv) (h : env.browserUp = true) :
    (parseCatalogs env).pagesOpened = 1 ∧
    ((parseCatalogs env).pagesClosed = 1 ↔
      env.page.nav = NavOutcome.ok ∧ env.page.selectorFound = true) ∧
    ((parseCatalogs env).pagesClosed = 0 ↔
      ¬(env.page.nav = NavOutcome.ok ∧ env.page.selectorFound = true)) := by
  obtain ⟨up, ⟨nav, sel, ents⟩, fs⟩ := env
  simp only at h
  subst h
  cases nav with
  | navError => simp [parseCatalogs]
  | timeoutErr => simp [parseCatalogs]
  | ok =>
    cases sel with
    | false => simp [parseCatalogs]
    | true =>
      simp only [parseCatalogs]
      split
      next h => simp at h
      next h => split <;> simp

def c7WEnv : BrowserEnv :=
  { browserUp := true
    page := { nav := .ok, selectorFound := true, entries := [] }
    fetches := [] }

/-- C7 witness: a successful run opens and closes exactly one page. -/
theorem c7_page_lifecycle_witness :
    c7WEnv.browserUp = true ∧
    ((parseCatalogs c7WEnv).pagesOpened = 1 ∧
      ((parseCatalogs c7WEnv).pagesClosed = 1 ↔
        c7WEnv.page.nav = NavOutcome.ok ∧ c7WEnv.page.selectorFound = true) ∧
      ((parseCatalogs c7WEnv).pagesClosed = 0 ↔
        ¬(c7WEnv.page.nav = NavOutcome.ok ∧ c7WEnv.page.selectorFound = true))) :=
  ⟨rfl, c7_page_lifecycle c7WEnv rfl⟩

/-! ## Download lemmas shared by C1, C2, C3 -/

theorem dl_eq_non200 {c : Catalog} {now code : Nat} {sOk : Bool}
    (hlink : c.link.isEmpty = false) (hcode : code ≠ 200) :
    downloadCatalog c (.response code sOk) now =
      { settled := .error (.httpStatus code), catalog := c
        path := targetPath c now, fileAt := some .incomplete } := by
  unfold downloadCatalog
  rw [hlink]
  simp [hcode]

theorem dl_eq_200 {c : Catalog} {now : Nat}
    (hlink : c.link.isEmpty = false) :
    downloadCatalog c (.response 200 true) now =
      { settled := .ok (), catalog := { c with localPath := some (targetPath c now) }
        path := targetPath c now, fileAt := some .complete } := by
  unfold downloadCatalog
  rw [hlink]
  simp

/-! ## Claim C3: non-success status handling in the fetch -/

def c3Cat : Catalog :=
  { title := ("Weekly Deals").toList
    link := ("https://x/a.pdf").toList
    validFrom := ("2024-01-01").toList
    validUntil := ("2024-01-07").toList
    localPath := none }

/-- C3 counterexample: on a 404 response the claim wants the partially
written file removed and the failure contained; in the code the promise
rejects — nothing catches it — and no `unlink` runs on the non-200 path, so
the file created by `fs.createWriteStream` stays behind. -/
theorem c3_counterexample :
    (downloadCatalog c3Cat (.response 404 true) 170).fileAt = some FileState.incomplete ∧
    settledOk (downloadCatalog c3Cat (.response 404 true) 170) = false :=
  ⟨rfl, rfl⟩

/-- C3 (amended): for every record with a non-empty link, a response whose
status code is not 200 makes the download promise reject with the status
error — which propagates to the caller, there being no catch at the fetch
boundary — while the record is returned unchanged (`localPath` stays as it
was, unset) and the file created at the derived target path is NOT
removed: `fs.unlink` runs only on transport and stream errors. -/
theorem c3_non200 (c : Catalog) (now code : Nat) (sOk : Bool)
    (hlink : c.link.isEmpty = false) (hcode : code ≠ 200) :
    downloadCatalog c (.response code sOk) now =
      { settled := .error (.httpStatus code), catalog := c
        path := targetPath c now, fileAt := some .incomplete } :=
  dl_eq_non200 hlink hcode

/-- C3 witness: the 404 case on a concrete record. -/
theorem c3_non200_witness :
    c3Cat.link.isEmpty = false ∧ (404 : Nat) ≠ 200 ∧
    downloadCatalog c3Cat (.response 404 true) 170 =
      { settled := .error (.httpStatus 404), catalog := c3Cat
        path := targetPath c3Cat 170, fileAt := some FileState.incomplete } :=
  ⟨rfl, by decide, c3_non200 c3Cat 170 404 true rfl (by decide)⟩

/-! ## Claim C1: failure isolation of the fetch fan-out -/

def c1CexEntry : Entry :=
  { anchors := [{ href := ("https://x/a.pdf").toList }]
    headingText := some (("Weekly Deals").toList)
    timeFirst := some (("2024-01-01").toList)
    timeLast := some (("2024-01-07").toList) }

def c1CexEnv : BrowserEnv :=
  { browserUp := true
    page := { nav := .ok, selectorFound := true, entries := [c1CexEntry] }
    fetches := [(.response 404 true, 170)] }

/-- C1 counterexample: a run over one record whose download answers 404.
Contrary to the claim, the single record's failure fails the run as a
whole — `parseCatalogs` rejects with the download error — and the metadata
snapshot is not written. -/
theorem c1_counterexample :
    (parseCatalogs c1CexEnv).result = .error (.download (.httpStatus 404)) ∧
    ((parseCatalogs c1CexEnv).run.map (fun ro => ro.metadataWritten)) = some none :=
  ⟨rfl, rfl⟩

/-- C1 (amended): on a run whose extraction phase succeeds, one fetch per
record is submitted and awaited with `Promise.all` — not `allSettled`: when
every download resolves, the snapshot is written and the annotated list is
returned; when any download rejects, the run as a whole rejects with that
error and no metadata snapshot is written.  Download failures are *not*
absorbed. -/
theorem c1_promise_all (env : BrowserEnv) (h1 : env.browserUp = true)
    (h2 : env.page.nav = NavOutcome.ok) (h3 : env.page.selectorFound = true) :
    (parseCatalogs env).run =
      some (processCatalogs ((evaluateCatalogs env.page.entries).zip env.fetches)) ∧
    (firstRejection (runDownloads ((evaluateCatalogs env.page.entries).zip env.fetches)) =
        none →
      (parseCatalogs env).result =
        .ok (processCatalogs ((evaluateCatalogs env.page.entries).zip env.fetches)).catalogsAfter ∧
      (processCatalogs ((evaluateCatalogs env.page.entries).zip env.fetches)).metadataWritten =
        some (processCatalogs ((evaluateCatalogs env.page.entries).zip env.fetches)).catalogsAfter) ∧
    (∀ e, firstRejection (runDownloads ((evaluateCatalogs env.page.entries).zip env.fetches)) =
        some e →
      (parseCatalogs env).result = .error (.download e) ∧
      (processCatalogs ((evaluateCatalogs env.page.entries).zip env.fetches)).metadataWritten =
        none) := by
  obtain ⟨up, ⟨nav, sel, ents⟩, fs⟩ := env
  simp only at h1 h2 h3
  subst h1
  subst h2
  subst h3
  simp only [parseCatalogs]
  cases hr : firstRejection (runDownloads ((evaluateCatalogs ents).zip fs)) with
  | none =>
    have hok := processCatalogs_settled_ok hr
    rw [hok.1]
    refine ⟨rfl, fun _ => ⟨rfl, ?_⟩, fun e he => absurd he (by simp)⟩
    rw [hok.2, processCatalogs_catalogsAfter]
  | some e0 =>
    have hrej := processCatalogs_rejected hr
    rw [hrej.1]
    refine ⟨rfl, fun hn => absurd hn (by simp), fun e he => ?_⟩
    have he2 : e0 = e := by simpa using he
    subst he2
    exact ⟨rfl, hrej.2⟩

def c1WEnv : BrowserEnv :=
  { browserUp := true
    page := { nav := .ok, selectorFound := true, entries := [c1CexEntry] }
    fetches := [(.response 200 true, 170)] }

/-- C1 witness: a run with one successful download reaches the metadata
write. -/
theorem c1_promise_all_witness :
    c1WEnv.browserUp = true ∧ c1WEnv.page.nav = NavOutcome.ok ∧
    c1WEnv.page.selectorFound = true ∧
    (parseCatalogs c1WEnv).run =
      some (processCatalogs ((evaluateCatalogs c1WEnv.page.entries).zip c1WEnv.fetches)) :=
  ⟨rfl, rfl, rfl, (c1_promise_all c1WEnv rfl rfl rfl).1⟩

/-! ## Claim C2: runs with F records answering non-200 -/

/-- A job whose remote resource answers 200 and whose stream completes. -/
def goodJob (j : Job) : Bool := decide (j.2.1 = FetchOutcome.response 200 true)

def c2CatA : Catalog :=
  { title := ("Weekly Deals").toList
    link := ("https://x/a.pdf").toList
    validFrom := ("2024-01-01").toList
    validUntil := ("2024-01-07").toList
    localPath := none }

def c2CatB : Catalog :=
  { title := ("Summer Sale").toList
    link := ("https://x/b.pdf").toList
    validFrom := ("2024-02-01").toList
    validUntil := ("2024-02-07").toList
    localPath := none }

def c2CexJobs : List Job := [(c2CatB, FetchOutcome.response 404 true, 170)]

/-- C2 counterexample: a run with M = 1, F = 1.  Contrary to the claim, the
metadata snapshot is not written at all (so it does not contain the M
records), and an incomplete file remains under the catalogs directory at the
failed record's target path. -/
theorem c2_counterexample :
    (processCatalogs c2CexJobs).metadataWritten = none ∧
    (targetPath c2CatB 170, FileState.incomplete) ∈ (processCatalogs c2CexJobs).files := by
  constructor
  · rfl
  · have h : (processCatalogs c2CexJobs).files =
        [(targetPath c2CatB 170, FileState.incomplete)] := rfl
    rw [h]
    exact List.mem_singleton_self _

/-- C2 (amended): over M records with non-empty links and unset localPath,
where each fetch either succeeds (200, stream finishes) or answers a
non-200 status: the annotated list always has M records of which exactly
the successful ones carry `localPath`; when F = 0 the metadata snapshot is
written with that list; when F ≥ 1 **no** snapshot is written at all, and
an incomplete file remains at the target path of every failed record. -/
theorem c2_partial_failure (jobs : List Job)
    (hout : ∀ j ∈ jobs, j.2.1 = FetchOutcome.response 200 true ∨
        ∃ code sOk, code ≠ 200 ∧ j.2.1 = FetchOutcome.response code sOk)
    (hlink : ∀ j ∈ jobs, j.1.link.isEmpty = false)
    (hinit : ∀ j ∈ jobs, j.1.localPath = none) :
    (processCatalogs jobs).catalogsAfter.length = jobs.length ∧
    (processCatalogs jobs).catalogsAfter.countP (fun c => c.localPath.isSome) =
      jobs.countP goodJob ∧
    ((∀ j ∈ jobs, goodJob j = true) →
      (processCatalogs jobs).metadataWritten = some (processCatalogs jobs).catalogsAfter) ∧
    ((∃ j ∈ jobs, goodJob j = false) →
      (processCatalogs jobs).metadataWritten = none) ∧
    (∀ j ∈ jobs, goodJob j = false →
      (targetPath j.1 j.2.2, FileState.incomplete) ∈ (processCatalogs jobs).files) := by
  have hjob : ∀ j ∈ jobs,
      (goodJob j = true →
        settledOk (downloadCatalog j.1 j.2.1 j.2.2) = true ∧
        (downloadCatalog j.1 j.2.1 j.2.2).catalog.localPath.isSome = true) ∧
      (goodJob j = false →
        settledOk (downloadCatalog j.1 j.2.1 j.2.2) = false ∧
        (downloadCatalog j.1 j.2.1 j.2.2).catalog.localPath.isSome = false ∧
        (downloadCatalog j.1 j.2.1 j.2.2).fileAt = some FileState.incomplete ∧
        (downloadCatalog j.1 j.2.1 j.2.2).path = targetPath j.1 j.2.2) := by
    intro j hj
    constructor
    · intro hg
      have heq : j.2.1 = FetchOutcome.response 200 true := of_decide_eq_true hg
      rw [heq, dl_eq_200 (hlink j hj)]
      exact ⟨rfl, rfl⟩
    · intro hb
      have hne : ¬ j.2.1 = FetchOutcome.response 200 true := of_decide_eq_false hb
      rcases hout j hj with heq | ⟨code, sOk, hcode, heq⟩
      · exact absurd heq hne
      · rw [heq, dl_eq_non200 (hlink j hj) hcode]
        refine ⟨rfl, ?_, rfl, rfl⟩
        simp [hinit j hj]
  refine ⟨?_, ?_, ?_, ?_, ?_⟩
  · rw [processCatalogs_catalogsAfter]
    unfold runDownloads
    simp
  · rw [processCatalogs_catalogsAfter]
    unfold runDownloads
    rw [List.countP_map, List.countP_map]
    apply List.countP_congr
    intro j hj
    cases hg : goodJob j with
    | true =>
      simp only [Function.comp_apply]
      rw [((hjob j hj).1 hg).2]
      simp
    | false =>
      simp only [Function.comp_apply]
      rw [((hjob j hj).2 hg).2.1]
  · intro hall
    have hnone : firstRejection (runDownloads jobs) = none := by
      rw [firstRejection_eq_none_iff]
      intro r hr
      unfold runDownloads at hr
      obtain ⟨j, hj, rfl⟩ := List.mem_map.mp hr
      exact ((hjob j hj).1 (hall j hj)).1
    rw [(processCatalogs_settled_ok hnone).2, processCatalogs_catalogsAfter]
  · rintro ⟨j, hj, hb⟩
    have hbadr := ((hjob j hj).2 hb).1
    cases hfr : firstRejection (runDownloads jobs) with
    | some e => exact (processCatalogs_rejected hfr).2
    | none =>
      exfalso
      have hall2 := (firstRejection_eq_none_iff _).mp hfr
      have hmem : downloadCatalog j.1 j.2.1 j.2.2 ∈ runDownloads jobs := by
        unfold runDownloads
        exact List.mem_map_of_mem _ hj
      have hcontra := hall2 _ hmem
      rw [hbadr] at hcontra
      simp at hcontra
  · intro j hj hb
    have hfacts := (hjob j hj).2 hb
    rw [processCatalogs_files]
    apply List.mem_filterMap.mpr
    refine ⟨downloadCatalog j.1 j.2.1 j.2.2, ?_, ?_⟩
    · unfold runDownloads
      exact List.mem_map_of_mem _ hj
    · simp [hfacts.2.2.1, hfacts.2.2.2]

def c2WJobs : List Job :=
  [(c2CatA, FetchOutcome.response 200 true, 170),
   (c2CatB, FetchOutcome.response 404 true, 171)]

/-- C2 witness: a two-record run, one success and one 404; no snapshot is
written. -/
theorem c2_partial_failure_witness :
    (∀ j ∈ c2WJobs, j.2.1 = FetchOutcome.response 200 true ∨
        ∃ code sOk, code ≠ 200 ∧ j.2.1 = FetchOutcome.response code sOk) ∧
    (∀ j ∈ c2WJobs, j.1.link.isEmpty = false) ∧
    (∀ j ∈ c2WJobs, j.1.localPath = none) ∧
    (processCatalogs c2WJobs).metadataWritten = none := by
  have h1 : ∀ j ∈ c2WJobs, j.2.1 = FetchOutcome.response 200 true ∨
      ∃ code sOk, code ≠ 200 ∧ j.2.1 = FetchOutcome.response code sOk := by
    intro j hj
    simp only [c2WJobs, List.mem_cons, List.not_mem_nil, or_false] at hj
    rcases hj with rfl | rfl
    · exact Or.inl rfl
    · exact Or.inr ⟨404, true, by decide, rfl⟩
  have h2 : ∀ j ∈ c2WJobs, j.1.link.isEmpty = false := by decide
  have h3 : ∀ j ∈ c2WJobs, j.1.localPath = none := by decide
  refine ⟨h1, h2, h3, ?_⟩
  exact (c2_partial_failure c2WJobs h1 h2 h3).2.2.2.1
    ⟨(c2CatB, FetchOutcome.response 404 true, 171), by decide, by decide⟩
